import Mathlib

/-!
# Verification of the tool-augmented conversation orchestrator

Shallow embedding of the agent-loop core of the `agent-examples`
repository (TypeScript): `src/agent/loop.ts` (final revision, identical to
the MCP-SDK revision of the loop for the methods embedded here),
`src/client/cli.ts`, `src/services/cosmos.ts`, the MCP-SDK agent-loop
revision (`initializeMCPTools`, `getToolDescriptionsFromMCP`,
`registerDiscoveredMCPTools`), and the tool server's declared schema in
`src/server/mcp-server.ts`.

External services (the completion service, the MCP tool server, the JSON
parser applied to a model-produced arguments string) are modeled as
oracle fields of an environment record; `await`ed calls that may throw are
modeled with `Except String`.  A thrown JavaScript error is represented by
its message string.  Timestamps (`new Date()`) are modeled by a `Nat`
supplied to the turn.  Argument values (TypeScript `unknown` inside a
parsed JSON object) are modeled opaquely as strings; no claim depends on
the value type.
-/

namespace AgentExamples

/-- Message role: the TypeScript union `'system' | 'user' | 'assistant'`. -/
inductive Role where
  | system
  | user
  | assistant
deriving DecidableEq, Repr

/-- Embedding of `ChatMessage` from `src/types` (final revision): role, content,
timestamp, owning session id. -/
structure ChatMessage where
  role : Role
  content : String
  timestamp : Nat
  sessionId : String
deriving DecidableEq, Repr

/-- An argument mapping (`Record<string, unknown>` after `JSON.parse`);
values modeled opaquely as strings. -/
abbrev Args := List (String × String)

/-- Embedding of `MCPToolCall` from `src/types`: tool name and argument mapping. -/
structure MCPToolCall where
  name : String
  arguments : Args
deriving DecidableEq, Repr

/-- Embedding of `AgentResponse` from `src/types` (final revision). `toolCalls`,
`error` and `isStreaming` are optional fields; absence is the default. -/
structure AgentResponse where
  message : String
  toolCalls : List MCPToolCall := []
  error : Option String := none
  isStreaming : Option Bool := none
deriving DecidableEq, Repr

/-- One content block of an MCP tool result: `{type, text}`. -/
structure ContentBlock where
  type : String
  text : String
deriving DecidableEq, Repr

/-- The structured result returned by a tool handler
(`{content: [{type, text}, ...]}`). -/
structure ToolCallResult where
  content : List ContentBlock
deriving DecidableEq, Repr

/-- An OpenAI-requested function call: `toolCall.function.name` and the
raw `toolCall.function.arguments` JSON string. -/
structure FuncCall where
  name : String
  argumentsStr : String
deriving DecidableEq, Repr

/-- One completion choice: `choice.message?.content` (possibly null) and
`choice.message?.tool_calls` (absent modeled as `[]`). -/
structure Choice where
  content : Option String
  tool_calls : List FuncCall
deriving DecidableEq, Repr

/-- A streamed tool-call delta: `{index, id?, type?, function?: {name?,
arguments?}}`. -/
structure ToolCallDelta where
  index : Nat
  id : Option String
  dtype : Option String
  fname : Option String
  fargs : Option String
deriving DecidableEq, Repr

/-- A streamed chunk's `choices[0]?.delta`: optional content fragment and
a list of tool-call deltas (absent modeled as `[]`). -/
structure StreamDelta where
  content : Option String
  tool_calls : List ToolCallDelta
deriving DecidableEq, Repr

/-- JavaScript `x || d` on an optional string: `null`/`undefined` and the
empty string are falsy and yield the default. -/
def jsOrElse (s : Option String) (d : String) : String :=
  match s with
  | some c => if c = "" then d else c
  | none => d

/-- JavaScript truthiness of an optional string
(`if (delta.content)`-style guards). -/
def truthy (s : Option String) : Bool :=
  match s with
  | some c => c ≠ ""
  | none => false

/-- The environment of one `AgentLoop` instance: the tool registry
(`this.mcpTools`, a name-keyed map modeled as an association list) and the
external oracles.  `completion` models the initial
`openaiClient.chat.completions.create` call (its list of choices),
`finalCompletion` the final call made from `handleToolCalls`
(collapsed to the optional text `choices[0]?.message?.content`), and
`streamCompletion` the streaming call (the list of received
`choices[0]?.delta` values).  `parse` models `JSON.parse` on a tool-call
arguments string, `stringify` models `JSON.stringify` of a tool result. -/
structure MCPDeps where
  parse : String → Option Args
  stringify : ToolCallResult → String
  tools : List (String × (Args → Except String ToolCallResult))
  completion : List (Role × String) → Except String (List Choice)
  finalCompletion : List (Role × String) → Except String (Option String)
  streamCompletion : List (Role × String) → Except String (List (Option StreamDelta))

/-- Lookup `this.mcpTools.get(toolName)` in the registry. -/
def lookupTool (tools : List (String × (Args → Except String ToolCallResult)))
    (name : String) : Option (Args → Except String ToolCallResult) :=
  (tools.find? (fun p => p.1 = name)).map (·.2)

/-- First binding of a key in an argument mapping (`args[key]` for an
object with unique keys). -/
def lookupArg (args : Args) (k : String) : Option String :=
  (args.find? (fun p => p.1 = k)).map (·.2)

/-- Embedding of the arguments parse (`JSON.parse` with default) wrapped in the final revision's
try/catch: an empty or missing arguments string parses to the empty
object, and a parse failure is caught and replaced by `{}` as well. -/
def parseToolArgs (parse : String → Option Args) (s : String) : Args :=
  if s = "" then [] else (parse s).getD []

/-- Embedding of `result.content?.[0]?.text || JSON.stringify(result)`: the text of the
first content block, falling back to the JSON serialization when the
block list is empty or its first text is falsy. -/
def resultText (stringify : ToolCallResult → String) (r : ToolCallResult) : String :=
  match r.content.head? with
  | some b => if b.text = "" then stringify r else b.text
  | none => stringify r

/-- The line appended to `toolResults` for one requested call: executes
the registered handler on the parsed arguments, tagging the outcome
(`result:` / `error:` / `not found`) by tool name. -/
def toolResultLine (deps : MCPDeps) (tc : FuncCall) : String :=
  let toolArgs := parseToolArgs deps.parse tc.argumentsStr
  match lookupTool deps.tools tc.name with
  | some handler =>
      match handler toolArgs with
      | .ok result =>
          "Tool " ++ tc.name ++ " result: " ++ resultText deps.stringify result ++ "\n"
      | .error msg =>
          "Tool " ++ tc.name ++ " error: " ++ msg ++ "\n"
  | none => "Tool " ++ tc.name ++ " not found\n"

/-- The `for (const toolCall of toolCalls)` loop of `handleToolCalls`:
builds `mcpToolCalls` (one entry per requested call, with the parsed —
possibly defaulted — arguments) and the concatenated `toolResults`
string, in request order. -/
def runToolCalls (deps : MCPDeps) : List FuncCall → List MCPToolCall × String
  | [] => ([], "")
  | tc :: rest =>
      let entry : MCPToolCall :=
        { name := tc.name, arguments := parseToolArgs deps.parse tc.argumentsStr }
      let line := toolResultLine deps tc
      let (restCalls, restText) := runToolCalls deps rest
      (entry :: restCalls, line ++ restText)

/-- Content of the synthetic assistant message announcing the tools used:
`I'll use the ${names.join(', ')} tool(s) to help you.` -/
def announceContent (calls : List MCPToolCall) : String :=
  "I\x27ll use the " ++ String.intercalate ", " (calls.map (·.name)) ++
    " tool(s) to help you."

/-- Embedding of the history projection `map(msg => (role, content))`: the request
messages derived from the history. -/
def toRequestMessages (hist : List ChatMessage) : List (Role × String) :=
  hist.map (fun m => (m.role, m.content))

/-- The extra user message carrying the turn's observation text in the
final completion request. -/
def obsRequestText (toolResults : String) : String :=
  "Based on these tool results, please provide a helpful response:\n" ++ toolResults

/-- The message list sent in the final completion request of
`handleToolCalls`: the history including the freshly appended
announcement message, followed by the observation user message.  The
observation is part of the request only; it is never pushed onto
`conversationHistory`. -/
def finalRequest (deps : MCPDeps) (now : Nat) (sid : String) (tcs : List FuncCall)
    (hist : List ChatMessage) : List (Role × String) :=
  let (mcpToolCalls, toolResults) := runToolCalls deps tcs
  toRequestMessages
      (hist ++ [⟨Role.assistant, announceContent mcpToolCalls, now, sid⟩]) ++
    [(Role.user, obsRequestText toolResults)]

/-- Embedding of `AgentLoop.handleToolCalls` (final revision, `src/agent/loop.ts`):
executes every requested call sequentially, appends the single synthetic
announcement message, issues the final completion with the concatenated
observation as an extra request message, and on success appends the final
assistant message.  Returns the post-state of `conversationHistory`
(persisting even when the final completion throws) together with either
the `AgentResponse` or the propagated error. -/
def handleToolCalls (deps : MCPDeps) (now : Nat) (sid : String) (tcs : List FuncCall)
    (hist : List ChatMessage) : List ChatMessage × Except String AgentResponse :=
  let (mcpToolCalls, _toolResults) := runToolCalls deps tcs
  let toolMessage : ChatMessage := ⟨Role.assistant, announceContent mcpToolCalls, now, sid⟩
  let hist1 := hist ++ [toolMessage]
  match deps.finalCompletion (finalRequest deps now sid tcs hist) with
  | .error e => (hist1, .error e)
  | .ok contentOpt =>
      let finalMessage := jsOrElse contentOpt "No final response generated"
      (hist1 ++ [⟨Role.assistant, finalMessage, now, sid⟩],
        .ok { message := finalMessage, toolCalls := mcpToolCalls })

/-- Per-turn configuration relevant to the embedded methods. -/
structure AgentConfig where
  chainOfThought : Bool
deriving DecidableEq, Repr

/-- The error response built by the `catch` block of `processMessage`. -/
def errResponse (e : String) : AgentResponse :=
  { message := "Sorry, I encountered an error while processing your message.",
    error := some e, isStreaming := some false }

/-- The history after the optional chain-of-thought reasoning message and
the user message have been pushed (shared verbatim by `processMessage`
and `processMessageStream`). -/
def pushUserTurn (cfg : AgentConfig) (now : Nat) (sid : String) (userMessage : String)
    (hist : List ChatMessage) : List ChatMessage :=
  let hist0 :=
    if cfg.chainOfThought then
      hist ++ [⟨Role.assistant,
        "Let\x27s break down the problem and reason step by step before answering.",
        now, sid⟩]
    else hist
  hist0 ++ [⟨Role.user, userMessage, now, sid⟩]

/-- Embedding of `AgentLoop.processMessage` (final revision): appends the user message
(and the chain-of-thought message when enabled), requests a completion,
dispatches to `handleToolCalls` when tool calls are present, otherwise
appends the assistant message.  Any thrown error (completion failure,
missing choice, or a final-completion failure inside `handleToolCalls`)
is caught and surfaced as `AgentResponse.error`; history mutations made
before the throw persist. -/
def processMessage (deps : MCPDeps) (cfg : AgentConfig) (now : Nat) (sid : String)
    (userMessage : String) (hist : List ChatMessage) :
    List ChatMessage × AgentResponse :=
  let hist1 := pushUserTurn cfg now sid userMessage hist
  match deps.completion (toRequestMessages hist1) with
  | .error e => (hist1, errResponse e)
  | .ok choices =>
      match choices.head? with
      | none => (hist1, errResponse "No response from Azure OpenAI")
      | some choice =>
          if choice.tool_calls ≠ [] then
            match handleToolCalls deps now sid choice.tool_calls hist1 with
            | (hist2, .ok resp) => (hist2, resp)
            | (hist2, .error e) => (hist2, errResponse e)
          else
            let assistantMessage := jsOrElse choice.content "No response generated"
            (hist1 ++ [⟨Role.assistant, assistantMessage, now, sid⟩],
              { message := assistantMessage, isStreaming := some false })

/-- An accumulated streaming tool call in `toolCallsMap`: id, type and the
concatenated `function.name` / `function.arguments` fragments. -/
structure AccCall where
  id : String
  ctype : String
  fname : String
  fargs : String
deriving DecidableEq, Repr

/-- JavaScript `Map.set` on a `Nat`-keyed map with insertion order:
update in place when the key is present, append otherwise. -/
def setAcc (m : List (Nat × AccCall)) (k : Nat) (v : AccCall) : List (Nat × AccCall) :=
  if m.any (fun p => p.1 = k) then m.map (fun p => if p.1 = k then (k, v) else p)
  else m ++ [(k, v)]

/-- JavaScript `Map.get` on the accumulated tool-call map. -/
def getAcc (m : List (Nat × AccCall)) (k : Nat) : Option AccCall :=
  (m.find? (fun p => p.1 = k)).map (·.2)

/-- Processing of one streamed tool-call delta: create the entry on first
sight of its index (`id || ''`, `type || 'function'`, empty name and
arguments) and extend the name/arguments strings by the truthy
fragments. -/
def applyToolCallDelta (m : List (Nat × AccCall)) (d : ToolCallDelta) :
    List (Nat × AccCall) :=
  let m1 :=
    if getAcc m d.index = none then
      setAcc m d.index
        { id := jsOrElse d.id "", ctype := jsOrElse d.dtype "function",
          fname := "", fargs := "" }
    else m
  match getAcc m1 d.index with
  | none => m1
  | some existing =>
      let e1 :=
        if truthy d.fname then { existing with fname := existing.fname ++ d.fname.getD "" }
        else existing
      let e2 :=
        if truthy d.fargs then { e1 with fargs := e1.fargs ++ d.fargs.getD "" }
        else e1
      setAcc m1 d.index e2

/-- The mutable state of the `for await (const chunk of stream)` loop:
the accumulated assistant text, the fragments yielded so far, and the
tool-call accumulation map. -/
structure StreamAcc where
  assistantMessage : String
  fragments : List String
  callsMap : List (Nat × AccCall)
deriving Repr

/-- One iteration of the stream-consumption loop: a missing delta is
skipped; a truthy content fragment is both accumulated and yielded; the
chunk's tool-call deltas are folded into the map. -/
def streamStep (acc : StreamAcc) (chunk : Option StreamDelta) : StreamAcc :=
  match chunk with
  | none => acc
  | some delta =>
      let acc1 :=
        if truthy delta.content then
          { acc with
            assistantMessage := acc.assistantMessage ++ delta.content.getD "",
            fragments := acc.fragments ++ [delta.content.getD ""] }
        else acc
      { acc1 with callsMap := delta.tool_calls.foldl applyToolCallDelta acc1.callsMap }

/-- The outcome of a streaming turn: the post-state of the history, the
text fragments yielded to the consumer, and the returned
`AgentResponse`. -/
structure StreamOutcome where
  history : List ChatMessage
  fragments : List String
  response : AgentResponse
deriving Repr

/-- The error response built by the `catch` block of
`processMessageStream`. -/
def errStreamResponse (e : String) : AgentResponse :=
  { message := "Sorry, I encountered an error while processing your message.",
    error := some e, isStreaming := some true }

/-- Embedding of `AgentLoop.processMessageStream` (final revision): pushes the same
pre-turn messages as `processMessage`, consumes the stream accumulating
content fragments and tool-call deltas, then either dispatches the
completed tool calls to `handleToolCalls` (when the map is non-empty) or
appends the accumulated assistant message.  The stream oracle is modeled
as delivering its whole chunk list or failing at the call. -/
def processMessageStream (deps : MCPDeps) (cfg : AgentConfig) (now : Nat) (sid : String)
    (userMessage : String) (hist : List ChatMessage) : StreamOutcome :=
  let hist1 := pushUserTurn cfg now sid userMessage hist
  match deps.streamCompletion (toRequestMessages hist1) with
  | .error e => { history := hist1, fragments := [], response := errStreamResponse e }
  | .ok chunks =>
      let acc := chunks.foldl streamStep ⟨"", [], []⟩
      if acc.callsMap ≠ [] then
        let completeToolCalls :=
          acc.callsMap.map (fun p => FuncCall.mk p.2.fname p.2.fargs)
        match handleToolCalls deps now sid completeToolCalls hist1 with
        | (hist2, .ok resp) =>
            { history := hist2, fragments := acc.fragments, response := resp }
        | (hist2, .error e) =>
            { history := hist2, fragments := acc.fragments,
              response := errStreamResponse e }
      else
        let text := jsOrElse (some acc.assistantMessage) "No response generated"
        { history := hist1 ++ [⟨Role.assistant, text, now, sid⟩],
          fragments := acc.fragments,
          response := { message := text, isStreaming := some true } }

/-- Concatenation of a list of strings in order. -/
def concatAll : List String → String
  | [] => ""
  | s :: rest => s ++ concatAll rest

/-- The concatenation of all content deltas of a stream (missing deltas
and missing contents contributing the empty string). -/
def chunkContentConcat (chunks : List (Option StreamDelta)) : String :=
  concatAll (chunks.map (fun c =>
    match c with
    | some d => d.content.getD ""
    | none => ""))

/-! ## Persistence Adapter: `src/services/cosmos.ts` -/

/-- Embedding of `ConversationSession` from `src/types`: Cosmos record shape
`{id, sessionId, messages[], createdAt, updatedAt}`. -/
structure ConversationSession where
  id : String
  sessionId : String
  messages : List ChatMessage
  createdAt : Nat
  updatedAt : Nat
deriving DecidableEq, Repr

/-- The Cosmos container modeled as the list of stored items;
`container.items.upsert(session)` replaces the item with the same `id`
when one exists (ids are unique in a container) and inserts otherwise. -/
def upsertSession (store : List ConversationSession) (s : ConversationSession) :
    List ConversationSession :=
  if store.any (fun t => t.id = s.id) then
    store.map (fun t => if t.id = s.id then s else t)
  else store ++ [s]

/-- Embedding of `CosmosService.saveSession`: an idempotent upsert of the session
record. -/
def saveSession (store : List ConversationSession) (s : ConversationSession) :
    List ConversationSession :=
  upsertSession store s

/-- Embedding of `CosmosService.loadSession`: the query
`SELECT * FROM c WHERE c.sessionId = @sessionId` followed by
`resources[0]`, `null` when no item matches. -/
def loadSession (store : List ConversationSession) (sessionId : String) :
    Option ConversationSession :=
  (store.filter (fun t => t.sessionId = sessionId)).head?

/-! ## Tool Invoker handshake: `src/client/cli.ts` -/

/-- Whether `p` occurs at the head of `l`. -/
def leadsWith : List Char → List Char → Bool
  | _, [] => true
  | [], _ :: _ => false
  | a :: as, b :: bs => a = b && leadsWith as bs

/-- Whether `p` occurs as a contiguous segment of `l`. -/
def containsChars : List Char → List Char → Bool
  | l, p =>
      if leadsWith l p then true
      else
        match l with
        | [] => false
        | _ :: rest => containsChars rest p

/-- JavaScript `s.includes(pat)`. -/
def strContains (s pat : String) : Bool :=
  containsChars s.data pat.data

/-- The tool server's response to the `initialize` handshake request, as
observed by `CLIClient.initializeMCPSession`: the HTTP status class, the
response body text, the `mcp-session-id` response header, and the
`error` member of the parsed JSON body (only consulted on HTTP
success). -/
structure InitHttpResponse where
  ok : Bool
  status : Nat
  bodyText : String
  sessionHeader : Option String
  bodyError : Option String
deriving DecidableEq, Repr

/-- The CLI client state relevant to the handshake:
`this.mcpSessionId` (`null` initially and in tokenless mode). -/
structure CLIState where
  mcpSessionId : Option String
deriving DecidableEq, Repr

/-- Embedding of `CLIClient.initializeMCPSession`: on a failed HTTP response whose
body reports `Server already initialized`, fall back to tokenless mode
(`mcpSessionId = null`); on any other failed response, throw; on
success, throw when the JSON body carries an error member, otherwise
store the `mcp-session-id` header (possibly absent) as the session
token. -/
def initializeMCPSession (resp : InitHttpResponse) (st : CLIState) :
    Except String CLIState :=
  if resp.ok = false then
    if strContains resp.bodyText "Server already initialized" then
      .ok { st with mcpSessionId := none }
    else
      .error ("Failed to initialize MCP session: " ++ toString resp.status ++ " - " ++
        resp.bodyText)
  else
    match resp.bodyError with
    | some m => .error ("MCP initialization error: " ++ m)
    | none => .ok { st with mcpSessionId := resp.sessionHeader }

/-- The handshake guard at the head of the `azure-functions-chat` tool
handler (`if (!this.mcpSessionId) await this.initializeMCPSession()`):
returns the updated state and the number of handshake requests issued
(0 or 1).  A thrown handshake error is caught by the handler's `catch`,
leaving the state unchanged. -/
def handshakeGuardStep (resp : InitHttpResponse) (st : CLIState) : CLIState × Nat :=
  if st.mcpSessionId = none then
    match initializeMCPSession resp st with
    | .ok st' => (st', 1)
    | .error _ => (st, 1)
  else (st, 0)

/-- Runs `k` consecutive tool invocations against a server whose handshake
endpoint deterministically answers `resp`; counts the total number of
handshake requests issued. -/
def runHandshakes (resp : InitHttpResponse) : Nat → CLIState → CLIState × Nat
  | 0, st => (st, 0)
  | k + 1, st =>
      let (st1, c) := handshakeGuardStep resp st
      let (st2, rest) := runHandshakes resp k st1
      (st2, c + rest)

/-! ## Argument filtering: `CLIClient.setupMCPTools` and the
MCP-SDK registration path -/

/-- The hardcoded allowlist of the CLI's `azure-functions-chat` handler
(`const allowedKeys = [...]`). -/
def cliAllowedKeys : List String :=
  ["query", "question", "context", "author", "azureService"]

/-- The parameter keys of the `find-azfunc-samples` tool's declared
`inputSchema` in `src/server/mcp-server.ts` (all optional `z.string()`
fields). -/
def findAzfuncSamplesSchemaKeys : List String :=
  ["query", "question", "context", "author", "azureService"]

/-- Filtering of a requested argument mapping by a key list, as in the
CLI handler's `for (const key of allowedKeys) if (key in args) ...` loop:
the filtered object holds, in allowlist order, exactly the allowed keys
present in the request.  (Values of a parsed JSON object are never
`undefined`, so the `!== undefined` guard is vacuous.) -/
def filterByKeys (keys : List String) (args : Args) : Args :=
  keys.filterMap (fun k => (lookupArg args k).map (fun v => (k, v)))

/-- The argument mapping the CLI's `azure-functions-chat` handler forwards
to the tool server (`filteredArgs`). -/
def cliFilteredArgs (args : Args) : Args :=
  filterByKeys cliAllowedKeys args

/-! ## Tool Directory / MCP-SDK agent loop revision -/

/-- One tool as listed by the MCP server (`result.tools[i]`): name,
description, and the declared input schema modeled by its parameter key
list (absent schema modeled as `none`). -/
structure MCPToolDef where
  name : String
  description : String
  inputSchema : Option (List String)
deriving DecidableEq, Repr

/-- A cached tool description
(`{name, description, parameters: tool.inputSchema || {…empty…}}`). -/
structure ToolDescription where
  name : String
  description : String
  parameters : List String
deriving DecidableEq, Repr

/-- The `tools/call` request body built by the SDK-registered handler
(`this.mcpClient.callTool({name, arguments})`). -/
structure CallToolRequest where
  name : String
  arguments : Args
deriving DecidableEq, Repr

/-- The MCP SDK client as seen by the agent loop: connecting, listing
tools, and invoking one tool. -/
structure MCPClientIO where
  connect : Except String Unit
  listTools : Except String (List MCPToolDef)
  callTool : CallToolRequest → Except String ToolCallResult

/-- The `tools/call` request the SDK-registered handler forwards for a
given tool name and requested argument mapping: the arguments are passed
through unchanged. -/
def discoveredToolRequest (toolName : String) (args : Args) : CallToolRequest :=
  { name := toolName, arguments := args }

/-- The generic handler installed by
`AgentLoop.registerDiscoveredMCPTools` for one discovered tool. -/
def discoveredToolHandler (client : MCPClientIO) (toolName : String) :
    Args → Except String ToolCallResult :=
  fun args => client.callTool (discoveredToolRequest toolName args)

/-- The loop state touched by MCP tool initialization: the description
cache and the tool registry. -/
structure MCPLoopState where
  mcpToolDescriptions : List (String × ToolDescription)
  mcpTools : List (String × (Args → Except String ToolCallResult))

/-- Embedding of `AgentLoop.getToolDescriptionsFromMCP` (MCP-SDK revision): calls
`listTools`; on success clears and repopulates the description cache
(`parameters` defaulting to an empty schema); on failure logs and
**rethrows**. -/
def getToolDescriptionsFromMCP (client : MCPClientIO) (st : MCPLoopState) :
    Except String MCPLoopState :=
  match client.listTools with
  | .error e => .error e
  | .ok tools =>
      .ok { st with
        mcpToolDescriptions :=
          tools.map (fun t =>
            (t.name, { name := t.name, description := t.description,
                       parameters := t.inputSchema.getD [] })) }

/-- JavaScript `Map.set` on a string-keyed registry with insertion
order. -/
def setTool (m : List (String × (Args → Except String ToolCallResult)))
    (k : String) (v : Args → Except String ToolCallResult) :
    List (String × (Args → Except String ToolCallResult)) :=
  if m.any (fun p => p.1 = k) then m.map (fun p => if p.1 = k then (k, v) else p)
  else m ++ [(k, v)]

/-- Embedding of `AgentLoop.registerDiscoveredMCPTools`: installs the generic
pass-through handler for every cached tool name. -/
def registerDiscoveredMCPTools (client : MCPClientIO) (st : MCPLoopState) :
    MCPLoopState :=
  { st with
    mcpTools :=
      st.mcpToolDescriptions.foldl
        (fun acc p => setTool acc p.1 (discoveredToolHandler client p.1)) st.mcpTools }

/-- Embedding of `AgentLoop.initializeMCPTools` (MCP-SDK revision): connect, fetch the
descriptions, register the handlers.  Any failure is logged and
**rethrown** to the caller (`throw error` in the method's catch). -/
def initializeMCPTools (client : MCPClientIO) (st : MCPLoopState) :
    Except String MCPLoopState :=
  match client.connect with
  | .error e => .error e
  | .ok _ =>
      match getToolDescriptionsFromMCP client st with
      | .error e => .error e
      | .ok st1 => .ok (registerDiscoveredMCPTools client st1)

/-! ## Bounded plan-and-execute variant -/

/-- The structured per-iteration model response of the plan-and-execute
mode (the JSON shape fixed by `system_prompt_plan_execute.md`). -/
structure PlanStepResponse where
  thought : String
  plan : List String
  toolRequests : List MCPToolCall
  taskComplete : Bool
  finalAnswer : Option String
deriving Repr

/-- The response of the bounded variant, carrying the completion flag of
spec §3. -/
structure PlanAgentResponse where
  message : String
  toolCalls : List MCPToolCall
  error : Option String
  isComplete : Bool
deriving DecidableEq, Repr

/-- Default iteration cap of the plan-and-execute mode. -/
def defaultMaxIterations : Nat := 10

/-- Modelled from the spec: `AgentLoop.processMessageWithPlan` — the
bounded plan-and-execute loop — is not part of the sources here; only its
tests (`test-plan-execute`), the demo script and the system prompt
template appear.  Per spec §4.6, each iteration obtains a structured
model response; when it signals task completion the loop returns the
final answer with `isComplete = true`; otherwise the loop records the
iteration's thought as the best available partial answer and continues,
and on exhausting the iteration budget it returns that partial answer
with `isComplete = false` and no error rather than raising.  Returns the
response together with the number of iterations performed. -/
def planExecuteAux (model : Nat → PlanStepResponse) (iter : Nat) (bestSoFar : String) :
    Nat → PlanAgentResponse × Nat
  | 0 =>
      ({ message := bestSoFar, toolCalls := [], error := none, isComplete := false }, 0)
  | fuel + 1 =>
      let resp := model iter
      if resp.taskComplete then
        ({ message := resp.finalAnswer.getD resp.thought,
           toolCalls := resp.toolRequests, error := none, isComplete := true }, 1)
      else
        let (r, n) := planExecuteAux model (iter + 1) resp.thought fuel
        (r, n + 1)

/-- Modelled from the spec: the bounded plan-and-execute turn with the
configured iteration cap. -/
def processMessageWithPlan (model : Nat → PlanStepResponse) (maxIterations : Nat) :
    PlanAgentResponse × Nat :=
  planExecuteAux model 0 "" maxIterations

/-! ## Concrete environments used as evaluation inputs -/

/-- A deterministic environment: one registered tool `t` that returns one
text block `R`, a completion service that requests a single call of `t`
(streamed as one tool-call delta and no content fragments), and a final
completion that answers `FINAL`.  The JSON parser rejects every
arguments string. -/
def exDeps : MCPDeps :=
  { parse := fun _ => none,
    stringify := fun _ => "serialized",
    tools := [("t", fun _ => .ok ⟨[⟨"text", "R"⟩]⟩)],
    completion := fun _ => .ok [⟨none, [⟨"t", ""⟩]⟩],
    finalCompletion := fun _ => .ok (some "FINAL"),
    streamCompletion := fun _ =>
      .ok [some ⟨none, [⟨0, some "id1", some "function", some "t", none⟩]⟩] }

/-- The same environment with a failing final completion. -/
def exDepsFinalErr : MCPDeps :=
  { exDeps with finalCompletion := fun _ => .error "boom" }

/-- The same environment with a tool handler that throws. -/
def exDepsToolErr : MCPDeps :=
  { exDeps with tools := [("t", fun _ => .error "ECONNREFUSED")] }

/-- An environment whose completion answers plain text, streamed in two
fragments. -/
def exDepsText : MCPDeps :=
  { exDeps with
    completion := fun _ => .ok [⟨some "Hello", []⟩],
    streamCompletion := fun _ => .ok [some ⟨some "Hel", []⟩, some ⟨some "lo", []⟩] }

/-- Per-turn configuration with chain-of-thought disabled. -/
def exCfg : AgentConfig := ⟨false⟩

/-- An MCP SDK client whose server is unreachable. -/
def exBadClient : MCPClientIO :=
  { connect := .error "connect ECONNREFUSED 127.0.0.1:8080",
    listTools := .error "connect ECONNREFUSED 127.0.0.1:8080",
    callTool := fun _ => .error "connect ECONNREFUSED 127.0.0.1:8080" }

/-- The empty MCP loop state (no cached descriptions, no registered
tools). -/
def exState0 : MCPLoopState := ⟨[], []⟩

/-- The handshake response of a server that reports an existing session:
HTTP failure whose body contains `Server already initialized`. -/
def exRespAlready : InitHttpResponse :=
  ⟨false, 400, "Server already initialized", none, none⟩

/-- A successful handshake response carrying a session id header. -/
def exRespOk : InitHttpResponse := ⟨true, 200, "ok", some "sid", none⟩

/-- A plan-and-execute model that never signals completion. -/
def exPlanModel : Nat → PlanStepResponse :=
  fun i => ⟨"thought " ++ toString i, [], [⟨"t", []⟩], false, none⟩

/-- The environment with a failing initial completion. -/
def exDepsInitErr : MCPDeps :=
  { exDeps with completion := fun _ => .error "down" }

/-! ## Helper lemmas -/

theorem concatAll_cons (s : String) (l : List String) :
    concatAll (s :: l) = s ++ concatAll l := rfl

theorem strApp_assoc (a b c : String) : a ++ b ++ c = a ++ (b ++ c) := by
  apply String.ext
  simp [String.data_append]

theorem strApp_empty (a : String) : a ++ "" = a := by
  apply String.ext
  rw [String.data_append]
  simp [String.data]

theorem strEmpty_app (a : String) : "" ++ a = a := by
  apply String.ext
  rw [String.data_append]
  rfl

theorem concatAll_append (l1 l2 : List String) :
    concatAll (l1 ++ l2) = concatAll l1 ++ concatAll l2 := by
  induction l1 with
  | nil => simp [concatAll, strEmpty_app]
  | cons a l ih => simp [concatAll, ih, strApp_assoc]

/-- The loop of `handleToolCalls` produces one `MCPToolCall` entry and one
tagged `toolResults` block per requested call, in request order. -/
theorem runToolCalls_eq (deps : MCPDeps) (tcs : List FuncCall) :
    runToolCalls deps tcs =
      (tcs.map (fun tc =>
          { name := tc.name, arguments := parseToolArgs deps.parse tc.argumentsStr }),
        concatAll (tcs.map (toolResultLine deps))) := by
  induction tcs with
  | nil => rfl
  | cons tc rest ih => simp [runToolCalls, concatAll_cons, ih]

theorem jsOrElse_ne_empty (o : Option String) (d : String) (hd : d ≠ "") :
    jsOrElse o d ≠ "" := by
  cases o with
  | none => exact hd
  | some c => by_cases hc : c = "" <;> simp [jsOrElse, hc, hd]

/-! ## Claim C1 -/

/-- C1, counterexample.  In a turn whose completion response requests one
tool call, the code appends exactly two messages — the synthetic
announcement and the final assistant answer — and **no** appended message
contains the concatenated tool-results text: the observation is never
appended to the conversation history, refuting the claim that exactly one
observation message is appended. -/
theorem c1_counterexample :
    (handleToolCalls exDeps 0 "s" [⟨"t", ""⟩] []).1 =
      [⟨Role.assistant, "I\x27ll use the t tool(s) to help you.", 0, "s"⟩,
       ⟨Role.assistant, "FINAL", 0, "s"⟩] ∧
    ((handleToolCalls exDeps 0 "s" [⟨"t", ""⟩] []).1.filter
        (fun m => strContains m.content (runToolCalls exDeps [⟨"t", ""⟩]).2)).length
      = 0 := by
  decide

/-- C1 (amended).  For a completion response requesting `N ≥ 1` tool
calls whose final completion succeeds, `handleToolCalls` appends exactly
one synthetic announcement message followed by the final assistant
message (no observation message is appended to the history); the
concatenated observation — one tagged result block per requested call, in
request order — is carried only as the last message of the final
completion request. -/
theorem c1_tool_round_messages (deps : MCPDeps) (now : Nat) (sid : String)
    (tcs : List FuncCall) (hist : List ChatMessage) (c : Option String)
    (_hne : tcs ≠ [])
    (hfc : deps.finalCompletion (finalRequest deps now sid tcs hist) = .ok c) :
    (handleToolCalls deps now sid tcs hist).1 =
      hist ++
        [⟨Role.assistant, announceContent (runToolCalls deps tcs).1, now, sid⟩,
         ⟨Role.assistant, jsOrElse c "No final response generated", now, sid⟩] ∧
    (handleToolCalls deps now sid tcs hist).2 =
      .ok { message := jsOrElse c "No final response generated",
            toolCalls := (runToolCalls deps tcs).1 } ∧
    (finalRequest deps now sid tcs hist).getLast? =
      some (Role.user, obsRequestText (concatAll (tcs.map (toolResultLine deps)))) ∧
    (runToolCalls deps tcs).1.length = tcs.length := by
  refine ⟨?_, ?_, ?_, ?_⟩
  · simp [handleToolCalls, hfc, List.append_assoc]
  · simp [handleToolCalls, hfc]
  · simp [finalRequest, runToolCalls_eq, List.getLast?_concat]
  · simp [runToolCalls_eq]

/-- C1 witness: the amended statement evaluated on the concrete
single-call environment. -/
theorem c1_tool_round_messages_witness :
    (handleToolCalls exDeps 0 "s" [⟨"t", ""⟩] []).1 =
      [] ++
        [⟨Role.assistant, announceContent (runToolCalls exDeps [⟨"t", ""⟩]).1, 0, "s"⟩,
         ⟨Role.assistant, jsOrElse (some "FINAL") "No final response generated", 0, "s"⟩] ∧
    (finalRequest exDeps 0 "s" [⟨"t", ""⟩] []).getLast? =
      some (Role.user,
        obsRequestText (concatAll ([⟨"t", ""⟩].map (toolResultLine exDeps)))) :=
  ⟨(c1_tool_round_messages exDeps 0 "s" [⟨"t", ""⟩] [] (some "FINAL") (by decide) rfl).1,
   (c1_tool_round_messages exDeps 0 "s" [⟨"t", ""⟩] [] (some "FINAL")
      (by decide) rfl).2.2.1⟩

/-! ## Claim C2 -/

/-- C2, counterexample.  With an unreachable tool server, tool discovery
does not return successfully with an empty descriptor set: the error is
rethrown past the Agent Loop boundary (`initializeMCPTools` evaluates to
a thrown error, not to any success state). -/
theorem c2_counterexample :
    initializeMCPTools exBadClient exState0 =
      .error "connect ECONNREFUSED 127.0.0.1:8080" ∧
    ¬ ∃ st' : MCPLoopState, initializeMCPTools exBadClient exState0 = .ok st' ∧
        st'.mcpToolDescriptions = [] := by
  refine ⟨rfl, ?_⟩
  rintro ⟨st', h, -⟩
  have hr : initializeMCPTools exBadClient exState0 =
      .error "connect ECONNREFUSED 127.0.0.1:8080" := rfl
  rw [hr] at h
  exact Except.noConfusion h

/-- C2 (amended).  When the tool server is unreachable — the connect step
or the list-tools step fails — `initializeMCPTools` rethrows that error
to its caller instead of degrading; the (pure) loop state is not
updated, so a caller that catches the error continues with whatever
tools were previously registered (zero when none were). -/
theorem c2_discovery_error_propagates (client : MCPClientIO) (st : MCPLoopState)
    (e : String) :
    (client.connect = .error e → initializeMCPTools client st = .error e) ∧
    (∀ u : Unit, client.connect = .ok u → client.listTools = .error e →
      initializeMCPTools client st = .error e) := by
  constructor
  · intro hc
    unfold initializeMCPTools
    rw [hc]
  · intro u hc hl
    unfold initializeMCPTools
    rw [hc]
    unfold getToolDescriptionsFromMCP
    rw [hl]

/-- C2 witness: the amended statement evaluated on the unreachable
client. -/
theorem c2_discovery_error_propagates_witness :
    initializeMCPTools exBadClient exState0 =
      .error "connect ECONNREFUSED 127.0.0.1:8080" :=
  (c2_discovery_error_propagates exBadClient exState0
      "connect ECONNREFUSED 127.0.0.1:8080").1 rfl

/-! ## Claim C3 -/

/-- C3, counterexample.  When the final completion after tool execution
fails, the turn does return an error, but a new assistant message — the
synthetic tool announcement — has already been appended to the
conversation history, refuting the claim that no new assistant message
is appended on a completion failure. -/
theorem c3_counterexample :
    (processMessage exDepsFinalErr exCfg 0 "s" "hi" []).2.error = some "boom" ∧
    (processMessage exDepsFinalErr exCfg 0 "s" "hi" []).1 =
      [⟨Role.user, "hi", 0, "s"⟩,
       ⟨Role.assistant, "I\x27ll use the t tool(s) to help you.", 0, "s"⟩] ∧
    ((processMessage exDepsFinalErr exCfg 0 "s" "hi" []).1.filter
        (fun m => m.role == Role.assistant)).length = 1 := by
  decide

/-- C3 (amended).  A Completion Client failure is terminal for the turn:
the turn returns `errResponse e` (error set, no model text), and the
user's message remains committed in the history.  On an
initial-completion failure nothing is appended after the user's message;
on a final-completion failure the already-appended synthetic
tool-announcement assistant message remains, and no final assistant
message is appended.  (When chain-of-thought mode is on, its synthetic
reasoning message precedes the user message in either case, as for
successful turns.) -/
theorem c3_completion_failure (deps : MCPDeps) (cfg : AgentConfig) (now : Nat)
    (sid u : String) (hist : List ChatMessage) (e : String) :
    (deps.completion (toRequestMessages (pushUserTurn cfg now sid u hist)) = .error e →
      processMessage deps cfg now sid u hist =
        (pushUserTurn cfg now sid u hist, errResponse e)) ∧
    (∀ (c : Option String) (tcs : List FuncCall), tcs ≠ [] →
      deps.completion (toRequestMessages (pushUserTurn cfg now sid u hist)) =
        .ok [⟨c, tcs⟩] →
      deps.finalCompletion
          (finalRequest deps now sid tcs (pushUserTurn cfg now sid u hist)) =
        .error e →
      processMessage deps cfg now sid u hist =
        (pushUserTurn cfg now sid u hist ++
            [⟨Role.assistant, announceContent (runToolCalls deps tcs).1, now, sid⟩],
          errResponse e)) := by
  constructor
  · intro hc
    simp [processMessage, hc]
  · intro c tcs hne hc hfc
    simp [processMessage, hc, hne, handleToolCalls, hfc]

/-- C3 witness: both failure paths evaluated on concrete environments. -/
theorem c3_completion_failure_witness :
    (processMessage exDepsInitErr exCfg 0 "s" "hi" [] =
      (pushUserTurn exCfg 0 "s" "hi" [], errResponse "down")) ∧
    (processMessage exDepsFinalErr exCfg 0 "s" "hi" [] =
      (pushUserTurn exCfg 0 "s" "hi" [] ++
          [⟨Role.assistant,
            announceContent (runToolCalls exDepsFinalErr [⟨"t", ""⟩]).1, 0, "s"⟩],
        errResponse "boom")) :=
  ⟨(c3_completion_failure exDepsInitErr exCfg 0 "s" "hi" [] "down").1 rfl,
   (c3_completion_failure exDepsFinalErr exCfg 0 "s" "hi" [] "boom").2 none
      [⟨"t", ""⟩] (by decide) rfl rfl⟩

/-! ## Claim C4 -/

/-- C4 (confirmed).  A tool handler that throws does not abort the turn:
its failure appears as an error-tagged block (`Tool <name> error: <msg>`)
inside the concatenated observation, the final completion is still
requested, and the turn returns an `AgentResponse` whose final message
is non-empty. -/
theorem c4_tool_failure_isolated (deps : MCPDeps) (now : Nat) (sid : String)
    (hist : List ChatMessage) (l1 l2 : List FuncCall) (tc : FuncCall)
    (h : Args → Except String ToolCallResult) (msg : String) (c : Option String)
    (hh : lookupTool deps.tools tc.name = some h)
    (herr : h (parseToolArgs deps.parse tc.argumentsStr) = .error msg)
    (hfc : deps.finalCompletion (finalRequest deps now sid (l1 ++ tc :: l2) hist) =
      .ok c) :
    (∃ s1 s2 : String,
        (runToolCalls deps (l1 ++ tc :: l2)).2 =
          s1 ++ (("Tool " ++ tc.name ++ " error: " ++ msg ++ "\n") ++ s2)) ∧
    (handleToolCalls deps now sid (l1 ++ tc :: l2) hist).2 =
      .ok { message := jsOrElse c "No final response generated",
            toolCalls := (runToolCalls deps (l1 ++ tc :: l2)).1 } ∧
    jsOrElse c "No final response generated" ≠ "" := by
  have hline : toolResultLine deps tc =
      "Tool " ++ tc.name ++ " error: " ++ msg ++ "\n" := by
    simp [toolResultLine, hh, herr]
  refine ⟨?_, ?_, ?_⟩
  · refine ⟨concatAll (l1.map (toolResultLine deps)),
      concatAll (l2.map (toolResultLine deps)), ?_⟩
    rw [runToolCalls_eq]
    simp [List.map_append, concatAll_append, concatAll_cons, hline]
  · simp [handleToolCalls, hfc]
  · exact jsOrElse_ne_empty c _ (by decide)

/-- C4 witness: the theorem evaluated on an environment whose only tool
handler throws `ECONNREFUSED`. -/
theorem c4_tool_failure_isolated_witness :
    (∃ s1 s2 : String,
        (runToolCalls exDepsToolErr ([] ++ ⟨"t", ""⟩ :: [])).2 =
          s1 ++ (("Tool " ++ "t" ++ " error: " ++ "ECONNREFUSED" ++ "\n") ++ s2)) ∧
    jsOrElse (some "FINAL") "No final response generated" ≠ "" :=
  ⟨(c4_tool_failure_isolated exDepsToolErr 0 "s" [] [] [] ⟨"t", ""⟩
      (fun _ => .error "ECONNREFUSED") "ECONNREFUSED" (some "FINAL") rfl rfl rfl).1,
   (c4_tool_failure_isolated exDepsToolErr 0 "s" [] [] [] ⟨"t", ""⟩
      (fun _ => .error "ECONNREFUSED") "ECONNREFUSED" (some "FINAL")
      rfl rfl rfl).2.2⟩

/-! ## Claim C10 -/

/-- C10 (confirmed).  When a requested tool call's arguments string is
not valid JSON, the turn neither fails nor skips the call: the parsed
arguments default to the empty mapping, the registered handler is
invoked with that empty mapping (the observation block is exactly the
one computed from the handler applied to `[]`), and the call is recorded
in the returned `AgentResponse.toolCalls` with empty arguments. -/
theorem c10_invalid_json_arguments (deps : MCPDeps) (now : Nat) (sid : String)
    (hist : List ChatMessage) (name s : String)
    (h : Args → Except String ToolCallResult) (c : Option String)
    (hparse : deps.parse s = none)
    (hh : lookupTool deps.tools name = some h)
    (hfc : deps.finalCompletion (finalRequest deps now sid [⟨name, s⟩] hist) = .ok c) :
    parseToolArgs deps.parse s = [] ∧
    (runToolCalls deps [⟨name, s⟩]).2 =
      (match h [] with
        | .ok result =>
            "Tool " ++ name ++ " result: " ++ resultText deps.stringify result ++ "\n"
        | .error m => "Tool " ++ name ++ " error: " ++ m ++ "\n") ∧
    (handleToolCalls deps now sid [⟨name, s⟩] hist).2 =
      .ok { message := jsOrElse c "No final response generated",
            toolCalls := [{ name := name, arguments := [] }] } := by
  have hpa : parseToolArgs deps.parse s = [] := by
    unfold parseToolArgs
    split
    · rfl
    · simp [hparse]
  refine ⟨hpa, ?_, ?_⟩
  · rw [runToolCalls_eq]
    simp [toolResultLine, hh, hpa, concatAll_cons]
    exact strApp_empty _
  · simp [handleToolCalls, hfc, runToolCalls_eq, hpa]

/-- C10 witness: the response records the call with empty arguments on a
concrete unparsable arguments string. -/
theorem c10_invalid_json_arguments_witness :
    (handleToolCalls exDeps 0 "s" [⟨"t", "oops"⟩] []).2 =
      .ok { message := jsOrElse (some "FINAL") "No final response generated",
            toolCalls := [{ name := "t", arguments := [] }] } :=
  (c10_invalid_json_arguments exDeps 0 "s" [] "t" "oops"
      (fun _ => .ok ⟨[⟨"text", "R"⟩]⟩) (some "FINAL") rfl rfl rfl).2.2

/-! ## Claim C5 -/

theorem lookupArg_cons (a b : String) (tl : Args) (k : String) :
    lookupArg ((a, b) :: tl) k = if a = k then some b else lookupArg tl k := by
  by_cases h : a = k <;> simp [lookupArg, List.find?_cons, h]

/-- Filtering by a key list keeps exactly the requested keys that lie in
the list, with their first bound values, and drops every other key. -/
theorem lookupArg_filterByKeys (keys : List String) (args : Args) (k : String) :
    lookupArg (filterByKeys keys args) k =
      if k ∈ keys then lookupArg args k else none := by
  induction keys with
  | nil => simp [filterByKeys, lookupArg]
  | cons k' rest ih =>
    cases hlk : lookupArg args k' with
    | none =>
      have hstep : filterByKeys (k' :: rest) args = filterByKeys rest args := by
        simp [filterByKeys, List.filterMap_cons, hlk]
      rw [hstep, ih]
      by_cases hk : k = k'
      · subst hk
        simp [hlk]
      · simp [List.mem_cons, hk]
    | some v =>
      have hstep : filterByKeys (k' :: rest) args =
          (k', v) :: filterByKeys rest args := by
        simp [filterByKeys, List.filterMap_cons, hlk]
      rw [hstep, lookupArg_cons]
      by_cases hk : k' = k
      · subst hk
        simp [hlk]
      · have hk' : ¬ k = k' := fun hc => hk hc.symm
        simp [hk, hk', ih, List.mem_cons]

/-- C5, counterexample.  In the MCP-SDK registration path
(`registerDiscoveredMCPTools`), the generic handler forwards the
requested argument mapping to the tool server unchanged: a key outside
the tool's declared schema (here `bogus`, not among the
`find-azfunc-samples` parameters) is forwarded rather than dropped,
refuting the claim for that invocation path. -/
theorem c5_counterexample :
    (discoveredToolRequest "find-azfunc-samples" [("bogus", "1")]).arguments =
      [("bogus", "1")] ∧
    filterByKeys findAzfuncSamplesSchemaKeys [("bogus", "1")] = [] ∧
    (discoveredToolRequest "find-azfunc-samples" [("bogus", "1")]).arguments ≠
      filterByKeys findAzfuncSamplesSchemaKeys [("bogus", "1")] := by
  decide

/-- C5 (amended).  Schema-based argument filtering happens only in the
CLI's hardcoded `azure-functions-chat` handler: its allowlist equals the
declared parameter-schema keys of `find-azfunc-samples`, and the
forwarded mapping binds exactly the requested keys lying in that schema
(unknown keys silently dropped).  The SDK-discovered registration path
forwards the requested argument mapping unchanged, without any
filtering. -/
theorem c5_argument_filtering :
    cliAllowedKeys = findAzfuncSamplesSchemaKeys ∧
    (∀ (args : Args) (k : String),
      lookupArg (cliFilteredArgs args) k =
        if k ∈ findAzfuncSamplesSchemaKeys then lookupArg args k else none) ∧
    (∀ (toolName : String) (args : Args),
      (discoveredToolRequest toolName args).arguments = args) := by
  refine ⟨rfl, ?_, fun _ _ => rfl⟩
  intro args k
  exact lookupArg_filterByKeys cliAllowedKeys args k

/-! ## Claim C6 -/

/-- C6, code bug.  The handshake guard re-fires on every call once the
first handshake ended in the tokenless fallback: after a response whose
body reports `Server already initialized`, `mcpSessionId` is left null,
so two consecutive tool calls issue two handshake requests — contradicting
the code's own `Initialize MCP session (only called once)` documentation.
Only a handshake that yields a session-id header is performed once. -/
theorem c6_handshake_reissued :
    runHandshakes exRespAlready 2 ⟨none⟩ = (⟨none⟩, 2) ∧
    runHandshakes exRespOk 3 ⟨none⟩ = (⟨some "sid"⟩, 1) := by
  decide

/-- Characterization of the handshake count over `k` tool calls: exactly
one handshake when the first one stores a session id, and one per call
otherwise (tokenless fallback, missing session header, or a throwing
handshake). -/
theorem runHandshakes_count (resp : InitHttpResponse) (k : Nat) :
    (runHandshakes resp k ⟨none⟩).2 =
      if resp.ok && resp.bodyError.isNone && resp.sessionHeader.isSome then
        min k 1
      else k := by
  induction k with
  | zero => simp [runHandshakes]
  | succ n ih =>
    by_cases hgood : resp.ok && resp.bodyError.isNone && resp.sessionHeader.isSome
    · obtain ⟨hok, hbe⟩ := Bool.and_eq_true_iff.mp (Bool.and_eq_true_iff.mp hgood).1
      have hsh := (Bool.and_eq_true_iff.mp hgood).2
      obtain ⟨sid, hsid⟩ := Option.isSome_iff_exists.mp hsh
      have hbe' : resp.bodyError = none := Option.isNone_iff_eq_none.mp hbe
      have hfix : ∀ m : Nat, runHandshakes resp m ⟨some sid⟩ = (⟨some sid⟩, 0) := by
        intro m
        induction m with
        | zero => rfl
        | succ p ihp => simp [runHandshakes, handshakeGuardStep, ihp]
      have hstep : handshakeGuardStep resp ⟨none⟩ = (⟨some sid⟩, 1) := by
        simp [handshakeGuardStep, initializeMCPSession, hok, hbe', hsid]
      simp [runHandshakes, hstep, hfix, hgood]
    · have hstay : (handshakeGuardStep resp ⟨none⟩).1 = ⟨none⟩ := by
        unfold handshakeGuardStep initializeMCPSession
        rcases hok : resp.ok with _ | _
        · by_cases hal : strContains resp.bodyText "Server already initialized" <;>
            simp [hal]
        · rcases hbe : resp.bodyError with _ | m
          · rcases hsh : resp.sessionHeader with _ | sid
            · simp
            · exfalso
              exact hgood (by simp [hok, hbe, hsh])
          · simp [hbe]
      have hone : (handshakeGuardStep resp ⟨none⟩).2 = 1 := by
        unfold handshakeGuardStep
        simp
        split <;> rfl
      simp only [runHandshakes]
      rw [show handshakeGuardStep resp ⟨none⟩ =
          (⟨none⟩, 1) from Prod.ext hstay hone]
      simp [ih, hgood]
      omega

/-! ## Claim C7 -/

/-- C7 (confirmed).  Saving a session and loading by the same session id
returns exactly the saved session — in particular its ordered message
list, with every message's content, role and timestamp — under the
repository's construction invariant that a stored record's `id` equals
its `sessionId` (both `saveFullSession` and `addMessageToSession` build
sessions with `id: sessionId`). -/
theorem c7_save_load_roundtrip (store : List ConversationSession)
    (s : ConversationSession) (hs : s.id = s.sessionId)
    (hstore : ∀ t ∈ store, t.id = t.sessionId) :
    loadSession (saveSession store s) s.sessionId = some s := by
  induction store with
  | nil => simp [saveSession, upsertSession, loadSession]
  | cons t rest ih =>
    have ht : t.id = t.sessionId := hstore t (by simp)
    have hrest : ∀ u ∈ rest, u.id = u.sessionId := fun u hu =>
      hstore u (by simp [hu])
    have ih' := ih hrest
    by_cases hid : t.id = s.id
    · simp [saveSession, upsertSession, loadSession, List.any_cons, hid,
        List.filter_cons]
    · have hts : ¬ t.sessionId = s.sessionId := by
        rw [← ht, ← hs]
        exact hid
      by_cases ha : rest.any (fun x => x.id = s.id)
      · have ha' : (t :: rest).any (fun x => x.id = s.id) = true := by
          simp [List.any_cons, ha]
        rw [saveSession, upsertSession, if_pos ha']
        rw [saveSession, upsertSession, if_pos ha] at ih'
        simpa [loadSession, List.filter_cons, hid, hts] using ih'
      · have ha' : ¬ (t :: rest).any (fun x => x.id = s.id) = true := by
          simp [List.any_cons, hid]
          simpa using ha
        rw [saveSession, upsertSession, if_neg ha']
        rw [saveSession, upsertSession, if_neg (by simpa using ha)] at ih'
        simpa [loadSession, List.filter_cons, hts] using ih'

/-- C7 witness: round-trip on a concrete store and session. -/
theorem c7_save_load_roundtrip_witness :
    loadSession
        (saveSession [⟨"a", "a", [⟨Role.system, "sys", 0, "a"⟩], 0, 0⟩]
          ⟨"b", "b", [⟨Role.user, "hi", 1, "b"⟩, ⟨Role.assistant, "yo", 2, "b"⟩], 1, 2⟩)
        "b" =
      some ⟨"b", "b", [⟨Role.user, "hi", 1, "b"⟩, ⟨Role.assistant, "yo", 2, "b"⟩], 1, 2⟩ :=
  c7_save_load_roundtrip [⟨"a", "a", [⟨Role.system, "sys", 0, "a"⟩], 0, 0⟩]
    ⟨"b", "b", [⟨Role.user, "hi", 1, "b"⟩, ⟨Role.assistant, "yo", 2, "b"⟩], 1, 2⟩
    rfl (by decide)

/-! ## Claim C8 -/

/-- A stream without tool-call deltas leaves the accumulated tool-call
map untouched. -/
theorem streamFold_callsMap (chunks : List (Option StreamDelta)) (acc : StreamAcc)
    (h : ∀ d : StreamDelta, some d ∈ chunks → d.tool_calls = []) :
    (chunks.foldl streamStep acc).callsMap = acc.callsMap := by
  induction chunks generalizing acc with
  | nil => rfl
  | cons c rest ih =>
    have hstep : (streamStep acc c).callsMap = acc.callsMap := by
      cases c with
      | none => rfl
      | some d =>
        have hd : d.tool_calls = [] := h d (by simp)
        simp only [streamStep, hd, List.foldl_nil]
        split <;> rfl
    rw [List.foldl_cons, ih _ (fun d hd => h d (by simp [hd])), hstep]

/-- The concatenation of the fragments yielded while consuming a stream
equals the concatenation of all its content deltas. -/
theorem streamFold_concat (chunks : List (Option StreamDelta)) (acc : StreamAcc) :
    concatAll (chunks.foldl streamStep acc).fragments =
      concatAll acc.fragments ++ chunkContentConcat chunks := by
  induction chunks generalizing acc with
  | nil => simp [chunkContentConcat, concatAll, strApp_empty]
  | cons c rest ih =>
    rw [List.foldl_cons, ih]
    have hfrag : concatAll (streamStep acc c).fragments =
        concatAll acc.fragments ++
          (match c with | some d => d.content.getD "" | none => "") := by
      cases c with
      | none => simp [streamStep, strApp_empty]
      | some d =>
        cases hdc : d.content with
        | none => simp [streamStep, truthy, hdc, strApp_empty]
        | some str =>
          by_cases hstr : str = ""
          · simp [streamStep, truthy, hdc, hstr, strApp_empty]
          · simp [streamStep, truthy, hdc, hstr, concatAll_append,
              concatAll_cons, concatAll, strApp_empty]
    rw [hfrag]
    simp [chunkContentConcat, concatAll_cons, strApp_assoc]

/-- C8, counterexample.  For a deterministic completion response that
requests one tool call and carries no content, the streaming call yields
no text fragments (their concatenation is empty) while the non-streaming
call returns the non-empty final message produced after tool execution
— so the concatenation of streamed fragments differs from the
non-streaming message for the same transcript and tool set. -/
theorem c8_counterexample :
    concatAll (processMessageStream exDeps exCfg 0 "s" "hi" []).fragments = "" ∧
    (processMessage exDeps exCfg 0 "s" "hi" []).2.message = "FINAL" ∧
    concatAll (processMessageStream exDeps exCfg 0 "s" "hi" []).fragments ≠
      (processMessage exDeps exCfg 0 "s" "hi" []).2.message := by
  decide

/-- C8 (amended).  For the same transcript and tool set and a
deterministic completion response that contains non-empty text and no
tool calls, the concatenation of all fragments yielded by
`processMessageStream` equals the message text returned by
`processMessage`. -/
theorem c8_streaming_equivalence (deps : MCPDeps) (cfg : AgentConfig) (now : Nat)
    (sid u : String) (hist : List ChatMessage)
    (chunks : List (Option StreamDelta)) (t : String)
    (hs : deps.streamCompletion (toRequestMessages (pushUserTurn cfg now sid u hist)) =
      .ok chunks)
    (hc : deps.completion (toRequestMessages (pushUserTurn cfg now sid u hist)) =
      .ok [⟨some t, []⟩])
    (hnl : ∀ d : StreamDelta, some d ∈ chunks → d.tool_calls = [])
    (hcc : chunkContentConcat chunks = t)
    (hne : t ≠ "") :
    concatAll (processMessageStream deps cfg now sid u hist).fragments =
      (processMessage deps cfg now sid u hist).2.message := by
  have hmap : (chunks.foldl streamStep ⟨"", [], []⟩).callsMap = [] :=
    streamFold_callsMap chunks _ hnl
  have hfr : concatAll (chunks.foldl streamStep ⟨"", [], []⟩).fragments = t := by
    rw [streamFold_concat]
    simpa [concatAll, strEmpty_app] using hcc
  rw [processMessageStream, processMessage, hs, hc]
  simp [hmap, hfr, jsOrElse, hne]

/-- C8 witness: the equivalence on a concrete two-fragment stream of the
text `Hello`. -/
theorem c8_streaming_equivalence_witness :
    concatAll (processMessageStream exDepsText exCfg 0 "s" "hi" []).fragments =
      (processMessage exDepsText exCfg 0 "s" "hi" []).2.message :=
  c8_streaming_equivalence exDepsText exCfg 0 "s" "hi" []
    [some ⟨some "Hel", []⟩, some ⟨some "lo", []⟩] "Hello" rfl rfl
    (by
      intro d hd
      simp at hd
      rcases hd with h | h <;> subst h <;> rfl)
    (by decide) (by decide)

/-! ## Claim C9 -/

/-- For a model that never signals completion, the bounded loop performs
exactly its fuel's worth of iterations and ends incomplete without an
error. -/
theorem planExecuteAux_never_complete (model : Nat → PlanStepResponse)
    (h : ∀ i, (model i).taskComplete = false) :
    ∀ (fuel iter : Nat) (b : String),
      (planExecuteAux model iter b fuel).2 = fuel ∧
      (planExecuteAux model iter b fuel).1.isComplete = false ∧
      (planExecuteAux model iter b fuel).1.error = none := by
  intro fuel
  induction fuel with
  | zero => exact fun iter b => ⟨rfl, rfl, rfl⟩
  | succ n ih =>
    intro iter b
    have hm := h iter
    have hrec := ih (iter + 1) (model iter).thought
    simp only [planExecuteAux, hm, Bool.false_eq_true, if_false]
    exact ⟨by rw [hrec.1], hrec.2.1, hrec.2.2⟩

/-- C9 (confirmed, spec-modelled).  In the bounded plan-and-execute
variant, a model that requests another tool call on every iteration makes
the loop stop after exactly the configured maximum number of iterations
(default 10) and return the best available partial answer with
`isComplete = false` and no error. -/
theorem c9_iteration_cap (model : Nat → PlanStepResponse)
    (h : ∀ i, (model i).taskComplete = false) :
    defaultMaxIterations = 10 ∧
    ∀ n : Nat,
      (processMessageWithPlan model n).2 = n ∧
      (processMessageWithPlan model n).1.isComplete = false ∧
      (processMessageWithPlan model n).1.error = none :=
  ⟨rfl, fun n => planExecuteAux_never_complete model h n 0 ""⟩

/-- C9 witness: the cap evaluated at the default of 10 iterations for a
concrete never-completing model. -/
theorem c9_iteration_cap_witness :
    (processMessageWithPlan exPlanModel 10).2 = 10 ∧
    (processMessageWithPlan exPlanModel 10).1.isComplete = false ∧
    (processMessageWithPlan exPlanModel 10).1.error = none :=
  (c9_iteration_cap exPlanModel (fun _ => rfl)).2 10

end AgentExamples

